import Mathlib

/-!
Verification of the Travel-Recommendation-System ingestion and ranking core.

Shallow embedding notes:
* Python floats are modelled as exact rationals (`ℚ`); Python ints as `ℤ`/`ℕ`.
* Optional fields (`None`) are modelled with `Option`; Python truthiness of a
  numeric field `x` is `x ≠ 0` (plus the `none` case), of a string `s ≠ ""`,
  of a list `l ≠ []`.
* String operations (`lower`, `title`, `split`, `strip`) are modelled for
  ASCII text, which is what the code base processes.
* Raw scraped records are modelled with already-numeric price/duration fields
  (the string-parsing branches of `_parse_price`/`_parse_duration` are not
  needed by any claim under study).
-/

namespace TravelRec

/-! ### String helpers (Python `str.split()`, `str.title()`, `str.strip()`,
`str.lower()`), written by structural recursion over the character list so
that concrete instances evaluate inside the kernel. -/

/-- Split a char list on whitespace runs, accumulating the current word
(in reverse) in `cur`; empty pieces are dropped, as Python `split()` does. -/
def splitWsAux : List Char → List Char → List String
  | [], cur => if cur = [] then [] else [⟨cur.reverse⟩]
  | c :: rest, cur =>
    if c.isWhitespace then
      if cur = [] then splitWsAux rest [] else ⟨cur.reverse⟩ :: splitWsAux rest []
    else splitWsAux rest (c :: cur)

/-- Python `title.split()`: split on whitespace runs, dropping empty pieces. -/
def splitWs (s : String) : List String :=
  splitWsAux s.data []

/-- Join a list of strings with single spaces (Python `" ".join(...)`). -/
def joinSp : List String → String
  | [] => ""
  | [x] => x
  | x :: xs => x ++ " " ++ joinSp xs

/-- Python `" ".join(title.split())`: collapse internal whitespace, trim ends. -/
def collapseWs (s : String) : String :=
  joinSp (splitWs s)

/-- Python `str.strip()` (ASCII whitespace). -/
def strStrip (s : String) : String :=
  ⟨((s.data.dropWhile Char.isWhitespace).reverse.dropWhile Char.isWhitespace).reverse⟩

/-- Python `str.lower()` (ASCII). -/
def strLower (s : String) : String :=
  ⟨s.data.map Char.toLower⟩

/-- Python-style `s[:n]` on strings (character count). -/
def strTake (s : String) (n : ℕ) : String :=
  ⟨s.data.take n⟩

/-- One step of Python `str.title()` over a char list; the `Bool` argument says
whether the previous character was cased (a letter, in ASCII). -/
def strTitleAux : Bool → List Char → List Char
  | _, [] => []
  | prevCased, c :: cs =>
    let c2 := if c.isAlpha then (if prevCased then c.toLower else c.toUpper) else c
    c2 :: strTitleAux c.isAlpha cs

/-- Python `str.title()` (ASCII): the first letter of every maximal run of
letters is uppercased, the remaining letters of the run are lowercased,
non-letters are unchanged. -/
def strTitle (s : String) : String :=
  ⟨strTitleAux false s.data⟩

/-! ### `tools/normalizer.py` -/

/-- A raw scraped listing (`raw_package` dict), with numeric fields already
numeric (see module comment). -/
structure RawListing where
  title : String := ""
  url : String := ""
  price_inr : ℚ := 0
  duration_days : ℤ := 0
  destinations : List String := []
  inclusions : List String := []
  exclusions : List String := []
  highlights : List String := []
  deriving Repr, DecidableEq

/-- The normalized package dict produced by `DataNormalizer.normalize_package`. -/
structure NormalizedPackage where
  agency_id : ℕ
  package_title : String
  url : String
  price_in_inr : ℚ
  duration_days : ℤ
  destinations : List String
  inclusions : List String
  exclusions : List String
  highlights : List String
  is_active : Bool
  deriving Repr, DecidableEq

/-- Truncation step at the end of `DataNormalizer._clean_title`. -/
def truncateTitle (t : String) : String :=
  if t.length > 200 then strTake t 197 ++ "..." else t

/-- `DataNormalizer._clean_title`. -/
def _clean_title (title : String) : String :=
  if title = "" then "Untitled Package"
  else truncateTitle (strTitle (collapseWs title))

/-- `DataNormalizer._parse_price`, numeric-input branch. -/
def _parse_price (price : ℚ) : ℚ := price

/-- `DataNormalizer._parse_duration`, integer-input branch. -/
def _parse_duration (duration : ℤ) : ℤ := duration

/-- Body of the cleaning loop of `DataNormalizer._normalize_destinations`:
strip, title-case, drop empties, dedup preserving first-seen order. -/
def normalizeDestinationsGo : List String → List String → List String
  | cleaned, [] => cleaned
  | cleaned, d :: ds =>
    let d2 := strTitle (strStrip d)
    if d2 ≠ "" ∧ d2 ∉ cleaned then normalizeDestinationsGo (cleaned ++ [d2]) ds
    else normalizeDestinationsGo cleaned ds

/-- `DataNormalizer._normalize_destinations` (list-of-strings input). -/
def _normalize_destinations (destinations : List String) : List String :=
  normalizeDestinationsGo [] destinations

/-- Cleaning loop of `DataNormalizer._normalize_list`. -/
def normalizeListGo : List String → List String → List String
  | cleaned, [] => cleaned
  | cleaned, i :: is =>
    let i2 := strStrip i
    if i2 ≠ "" ∧ i2 ∉ cleaned then normalizeListGo (cleaned ++ [i2]) is
    else normalizeListGo cleaned is

/-- `DataNormalizer._normalize_list` (list-of-strings input). -/
def _normalize_list (items : List String) : List String :=
  normalizeListGo [] items

/-- `DataNormalizer._validate_package`. -/
def _validate_package (p : NormalizedPackage) : Bool :=
  if p.package_title = "" then false
  else if p.price_in_inr ≤ 0 then false
  else if p.duration_days ≤ 0 then false
  else if p.destinations = [] then false
  else if p.price_in_inr < 1000 ∨ p.price_in_inr > 10000000 then false
  else if p.duration_days < 1 ∨ p.duration_days > 90 then false
  else true

/-- The `normalized` dict built at the top of `DataNormalizer.normalize_package`. -/
def normalizedOf (raw : RawListing) (agency_id : ℕ) : NormalizedPackage :=
  { agency_id := agency_id
    package_title := _clean_title raw.title
    url := raw.url
    price_in_inr := _parse_price raw.price_inr
    duration_days := _parse_duration raw.duration_days
    destinations := _normalize_destinations raw.destinations
    inclusions := _normalize_list raw.inclusions
    exclusions := _normalize_list raw.exclusions
    highlights := _normalize_list raw.highlights
    is_active := true }

/-- `DataNormalizer.normalize_package`: build the normalized dict, then return
it only if `_validate_package` accepts it. -/
def normalize_package (raw : RawListing) (agency_id : ℕ) : Option NormalizedPackage :=
  if _validate_package (normalizedOf raw agency_id) then some (normalizedOf raw agency_id)
  else none

/-! ### `agents/ranker.py` -/

/-- `ParsedIntent` (the fields the ranker reads). -/
structure ParsedIntent where
  destinations : List String := []
  duration_days : Option ℤ := none
  budget_per_person : Option ℚ := none
  must_include : List String := []
  flexibility_days : ℤ := 2
  deriving Repr, DecidableEq

/-- The common package dictionary the ranker scores (`PackageRanker._to_dict`
output shape). -/
structure PackageRecord where
  agency_name : String := "Unknown Agency"
  package_title : String := ""
  url : String := ""
  price_in_inr : ℚ := 0
  duration_days : ℤ := 0
  destinations : List String := []
  inclusions : List String := []
  exclusions : List String := []
  highlights : List String := []
  rating : Option ℚ := none
  reviews_count : ℤ := 0
  agency_trust_score : ℚ := 1/2
  source_confidence_score : ℚ := 1/2
  deriving Repr, DecidableEq

/-- Lower-cased destination set (`set(d.lower() for d in ...)`). -/
def lowerSet (l : List String) : Finset String :=
  (l.map strLower).toFinset

/-- `PackageRanker._score_destination_match`. -/
def _score_destination_match (pkg : PackageRecord) (intent : ParsedIntent) : ℚ :=
  if intent.destinations = [] then 1/2
  else if lowerSet pkg.destinations = ∅ then 0
  else if lowerSet pkg.destinations ∩ lowerSet intent.destinations = ∅ then 0
  else
    min
      (if lowerSet pkg.destinations = lowerSet intent.destinations then 1
       else ((lowerSet pkg.destinations ∩ lowerSet intent.destinations).card : ℚ) /
          ((lowerSet intent.destinations).card : ℚ))
      1

/-- The body of `PackageRanker._score_duration_match` from `diff` on
(`diff = |pkg_days - intent_days|`, `flex = intent.flexibility_days`). -/
def durationScoreOfDiff (flex diff : ℤ) : ℚ :=
  if diff = 0 then 1
  else if diff ≤ flex then 1 - ((diff : ℚ) / ((flex : ℚ) + 1)) * (1/5)
  else if diff ≥ flex * 2 then 0
  else 1 - (diff : ℚ) / ((flex * 2 : ℤ) : ℚ)

/-- `PackageRanker._score_duration_match`. -/
def _score_duration_match (pkg : PackageRecord) (intent : ParsedIntent) : ℚ :=
  match intent.duration_days with
  | none => 1/2
  | some intent_days =>
    if intent_days = 0 then 1/2  -- Python falsy `if not intent.duration_days`
    else if pkg.duration_days = 0 then 0  -- `if not pkg_days`
    else durationScoreOfDiff intent.flexibility_days |pkg.duration_days - intent_days|

/-- `PackageRanker._score_budget_match`. -/
def _score_budget_match (pkg : PackageRecord) (intent : ParsedIntent) : ℚ :=
  match intent.budget_per_person with
  | none => 1/2
  | some budget =>
    if budget = 0 then 1/2  -- Python falsy `if not intent.budget_per_person`
    else if pkg.price_in_inr = 0 then 0  -- `if not pkg_price`
    else if |pkg.price_in_inr - budget| / budget ≤ 1/20 then 1
    else if pkg.price_in_inr < budget then 4/5 + (pkg.price_in_inr / budget) * (1/5)
    else if (pkg.price_in_inr - budget) / budget ≤ 1/10 then
      9/10 - ((pkg.price_in_inr - budget) / budget) * 5
    else if (pkg.price_in_inr - budget) / budget ≤ 3/10 then
      3/5 - ((pkg.price_in_inr - budget) / budget - 1/10) * 2
    else if (pkg.price_in_inr - budget) / budget ≤ 1/2 then
      3/10 - ((pkg.price_in_inr - budget) / budget - 3/10) * (3/2)
    else 0

/-- `PackageRanker._score_trust` (the `or 0.5` defaults make a zero score fall
back to `0.5`, exactly as Python truthiness does). -/
def _score_trust (pkg : PackageRecord) : ℚ :=
  let trust := if pkg.agency_trust_score = 0 then 1/2 else pkg.agency_trust_score
  let confidence := if pkg.source_confidence_score = 0 then 1/2 else pkg.source_confidence_score
  (trust + confidence) / 2

/-- `PackageRanker._score_reviews`. -/
def _score_reviews (pkg : PackageRecord) : ℚ :=
  match pkg.rating with
  | none => 1/2
  | some rating =>
    let reviews_count := pkg.reviews_count
    let rating_score := rating / 5
    let bonus : ℚ :=
      if reviews_count ≥ 100 then 1/10
      else if reviews_count ≥ 50 then 1/20
      else if reviews_count ≥ 10 then 1/50
      else 0
    min (rating_score + bonus) 1

/-- `PackageRanker._score_inclusions`. -/
def _score_inclusions (pkg : PackageRecord) (intent : ParsedIntent) : ℚ :=
  let pkg_inclusions := lowerSet pkg.inclusions
  let must_include := lowerSet intent.must_include
  let base := min ((pkg_inclusions.card : ℚ) / 10) (7/10)
  let bonus : ℚ :=
    if must_include = ∅ then 0
    else ((pkg_inclusions ∩ must_include).card : ℚ) / (must_include.card : ℚ) * (3/10)
  min (base + bonus) 1

/-- The factor-score dictionary built by `PackageRanker._calculate_scores`. -/
structure FactorScores where
  destination_match : ℚ
  duration_match : ℚ
  budget_match : ℚ
  trust_score : ℚ
  reviews : ℚ
  inclusions : ℚ
  deriving Repr, DecidableEq

/-- `PackageRanker._calculate_scores`. -/
def _calculate_scores (pkg : PackageRecord) (intent : ParsedIntent) : FactorScores :=
  { destination_match := _score_destination_match pkg intent
    duration_match := _score_duration_match pkg intent
    budget_match := _score_budget_match pkg intent
    trust_score := _score_trust pkg
    reviews := _score_reviews pkg
    inclusions := _score_inclusions pkg intent }

/-- The configurable factor weights (`PackageRanker.__init__`). -/
structure Weights where
  destination_match : ℚ
  duration_match : ℚ
  budget_match : ℚ
  trust_score : ℚ
  reviews : ℚ
  inclusions : ℚ
  deriving Repr, DecidableEq

/-- The default weights used when no environment override is present. -/
def defaultWeights : Weights :=
  { destination_match := 3/10
    duration_match := 1/5
    budget_match := 1/4
    trust_score := 1/10
    reviews := 1/10
    inclusions := 1/20 }

/-- Python `round(x, 3)` modelled on exact rationals: round to the nearest
multiple of `1/1000` (ties are immaterial to the claims under study). -/
def round3 (q : ℚ) : ℚ := (round (q * 1000) : ℤ) / 1000

/-- The weighted sum inside `PackageRanker._calculate_total_score`. -/
def weightedSum (w : Weights) (s : FactorScores) : ℚ :=
  s.destination_match * w.destination_match + s.duration_match * w.duration_match +
    s.budget_match * w.budget_match + s.trust_score * w.trust_score +
    s.reviews * w.reviews + s.inclusions * w.inclusions

/-- `PackageRanker._calculate_total_score`. -/
def _calculate_total_score (w : Weights) (s : FactorScores) : ℚ :=
  round3 (weightedSum w s)

/-- One entry of the `scored_packages` list in `rank_packages`. -/
structure ScoredEntry where
  package : PackageRecord
  total_score : ℚ
  score_breakdown : FactorScores
  deriving Repr, DecidableEq

/-- Build one scored entry for a package. -/
def mkScored (w : Weights) (intent : ParsedIntent) (pkg : PackageRecord) : ScoredEntry :=
  let scores := _calculate_scores pkg intent
  { package := pkg
    total_score := _calculate_total_score w scores
    score_breakdown := scores }

/-- The descending-by-total-score ordering used by
`scored_packages.sort(key=..., reverse=True)`; with a stable sort this is the
exact Python behaviour. -/
def scoredGE (a b : ScoredEntry) : Prop := b.total_score ≤ a.total_score

instance : DecidableRel scoredGE := fun a b => inferInstanceAs (Decidable (_ ≤ _))

/-- The output entry (`RankedPackage`, restricted to the fields the ranking
algorithm computes). -/
structure RankedEntry where
  package : PackageRecord
  rank : ℕ
  total_score : ℚ
  score_breakdown : FactorScores
  deriving Repr, DecidableEq

/-- The 1-based rank assignment loop (`for i, scored in enumerate(top, 1)`). -/
def withRanks : ℕ → List ScoredEntry → List RankedEntry
  | _, [] => []
  | i, s :: ss =>
    { package := s.package
      rank := i
      total_score := s.total_score
      score_breakdown := s.score_breakdown } :: withRanks (i + 1) ss

/-- `PackageRanker.rank_packages`: score every candidate, sort by descending
total score with Python's stable sort (modelled by `List.insertionSort` on the
non-strict descending relation), truncate to `max_results`, then assign
1-based ranks. -/
def rank_packages (w : Weights) (packages : List PackageRecord) (intent : ParsedIntent)
    (max_results : ℕ) : List RankedEntry :=
  if packages = [] then []
  else
    let scored_packages := packages.map (mkScored w intent)
    let sorted := scored_packages.insertionSort scoredGE
    let top_packages := sorted.take max_results
    withRanks 1 top_packages

/-! ### `db/crud.py` — `bulk_create_packages`

The sessions created by `db/sessions.py` use `autoflush=False`, so the
duplicate-check queries issued inside one `bulk_create_packages` call see only
the rows committed before the call: rows `db.add`-ed earlier in the same batch
are pending and invisible to `db.query(...)` until the single final commit.
The model therefore checks every candidate against the initial table state
`db0` and appends all accepted rows at the end. -/

/-- A persisted `TravelPackage` row (the columns the dedup logic reads). -/
structure PackageRow where
  agency_id : ℕ
  package_title : String
  url : String
  price_in_inr : ℚ
  duration_days : ℤ
  deriving Repr, DecidableEq

/-- Turn a normalized package dict into a row for the given agency
(`TravelPackage(agency_id=agency_id, **pkg_data)` after the `agency_id` pop). -/
def toRow (agency_id : ℕ) (p : NormalizedPackage) : PackageRow :=
  { agency_id := agency_id
    package_title := p.package_title
    url := p.url
    price_in_inr := p.price_in_inr
    duration_days := p.duration_days }

/-- The URL duplicate check: candidate URL truthy and longer than 10 chars,
and some already-committed row of the same agency has the identical URL. -/
def dupByUrl (db0 : List PackageRow) (agency_id : ℕ) (p : NormalizedPackage) : Bool :=
  p.url ≠ "" && p.url.length > 10 &&
    db0.any (fun q => q.agency_id = agency_id && q.url = p.url)

/-- The title+duration duplicate check: candidate title truthy and some
already-committed row of the same agency has identical title and duration. -/
def dupByTitle (db0 : List PackageRow) (agency_id : ℕ) (p : NormalizedPackage) : Bool :=
  p.package_title ≠ "" &&
    db0.any (fun q =>
      q.agency_id = agency_id && q.package_title = p.package_title &&
        q.duration_days = p.duration_days)

/-- The per-record loop of `bulk_create_packages`: returns the count of
created rows and the created rows in order. -/
def bulkGo (db0 : List PackageRow) (agency_id : ℕ) : List NormalizedPackage → ℕ × List PackageRow
  | [] => (0, [])
  | p :: rest =>
    if dupByUrl db0 agency_id p || dupByTitle db0 agency_id p then
      bulkGo db0 agency_id rest
    else
      let (n, added) := bulkGo db0 agency_id rest
      (n + 1, toRow agency_id p :: added)

/-- `bulk_create_packages`: returns `created` and the table contents after the
final commit. -/
def bulk_create_packages (db0 : List PackageRow) (agency_id : ℕ)
    (packages : List NormalizedPackage) : ℕ × List PackageRow :=
  let (created, added) := bulkGo db0 agency_id packages
  (created, db0 ++ added)

/-! ### `tools/llm_helper.py` — `GeminiLLM.extract_packages_from_html`

The nondeterministic environment (one Gemini call per loop iteration) is an
input trace `env : ℕ → GeminiOutcome` indexed by the attempt number. The
model returns the tier-3 result (`some cleaned`, or `none` when the code
falls through to `_fallback_extract_packages`), the list of back-off sleeps
performed, and the number of `generate_content` calls made. -/

/-- One package object of the JSON array returned by Gemini (well-typed
fields, as the claims need no coercion-failure cases). -/
structure GemPackage where
  package_title : String := ""
  price_in_inr : ℚ := 0
  duration_days : ℤ := 0
  destinations : List String := []
  url : String := ""
  deriving Repr, DecidableEq

/-- A cleaned package (`GeminiLLM._clean_packages` output entry). -/
structure CleanedPackage where
  package_title : String
  price_in_inr : ℚ
  duration_days : ℤ
  destinations : List String
  url : String
  source_confidence_score : ℚ
  deriving Repr, DecidableEq

/-- `GeminiLLM._clean_packages` on well-typed input. -/
def _clean_packages (pkgs : List GemPackage) : List CleanedPackage :=
  pkgs.map fun p =>
    { package_title := strStrip p.package_title
      price_in_inr := p.price_in_inr
      duration_days := p.duration_days
      destinations := p.destinations
      url := p.url
      source_confidence_score := 4/5 }

/-- Outcome of one `generate_content`-and-parse step:
an exception carrying its message, a response parsing to a JSON array, or a
response parsing to JSON that is not an array. A JSON decode failure is an
exception (its message never mentions 429/quota). -/
inductive GeminiOutcome where
  | exn (msg : String)
  | jsonList (pkgs : List GemPackage)
  | jsonOther
  deriving Repr, DecidableEq

/-- The rate-limit test `"429" in error_str or "quota" in error_str.lower()`. -/
def isRateLimitMsg (msg : String) : Bool :=
  decide ("429".data <:+: msg.data) || decide ("quota".data <:+: (strLower msg).data)

/-- Result of the extraction loop: tier-3 packages (`none` = fall through to
the heuristic fallback), back-off sleeps in seconds, `generate_content` calls. -/
structure ExtractOutcome where
  tier3 : Option (List CleanedPackage)
  sleeps : List ℕ
  calls : ℕ
  deriving Repr, DecidableEq

/-- The retry loop of `extract_packages_from_html` (`max_retries = 3`,
`base_delay = 5`): structure mirrors the Python `for attempt in range(3)`. -/
def extractGo (env : ℕ → GeminiOutcome) : ℕ → ℕ → ExtractOutcome
  | _, 0 => { tier3 := none, sleeps := [], calls := 0 }
  | attempt, r + 1 =>
    match env attempt with
    | .jsonList pkgs => { tier3 := some (_clean_packages pkgs), sleeps := [], calls := 1 }
    | .jsonOther =>
      let rest := extractGo env (attempt + 1) r
      { rest with calls := rest.calls + 1 }
    | .exn msg =>
      if isRateLimitMsg msg then
        let rest := extractGo env (attempt + 1) r
        { rest with sleeps := 5 * 2 ^ attempt :: rest.sleeps, calls := rest.calls + 1 }
      else
        { tier3 := none, sleeps := [], calls := 1 }

/-- `GeminiLLM.extract_packages_from_html` under environment trace `env`. -/
def extract_packages_from_html (env : ℕ → GeminiOutcome) : ExtractOutcome :=
  extractGo env 0 3

/-! ### `tools/scraper_engine.py` — `ScraperEngine.__aenter__` / `scrape_agency`

The per-attempt fetch (Playwright navigation or the requests fallback) is an
input trace `env : ℕ → AttemptOutcome` indexed by the 1-based attempt number;
the LLM extraction is an injected function `ext`. -/

/-- Outcome of one fetch attempt: the captured HTML, a Playwright timeout, or
any other exception with its message. -/
inductive AttemptOutcome where
  | ok (html : String)
  | timeout
  | exn (msg : String)
  deriving Repr, DecidableEq

/-- The structured result dict of `scrape_agency`. -/
structure ScrapeResult where
  url : String
  agency_name : String
  success : Bool
  packages : List CleanedPackage
  error : Option String
  html_length : ℕ
  mode : String
  deriving Repr, DecidableEq

/-- Engine state established by `__aenter__`. -/
structure EngineState where
  browser : Bool
  fallback_mode : String
  deriving Repr, DecidableEq

/-- How browser start-up went: full success, browser launch failure, or the
whole Playwright runtime unavailable. -/
inductive LaunchOutcome where
  | ok
  | launchFail
  | startFail
  deriving Repr, DecidableEq

/-- `ScraperEngine.__aenter__`: any failure switches to requests mode. -/
def aenterState : LaunchOutcome → EngineState
  | .ok => { browser := true, fallback_mode := "playwright" }
  | .launchFail => { browser := false, fallback_mode := "requests" }
  | .startFail => { browser := false, fallback_mode := "requests" }

/-- The retry loop of `scrape_agency` (`for attempt in range(1, max_retries+1)`),
threading the mutable `result` dict; returns the result and the back-off
sleeps performed. -/
def scrapeGo (env : ℕ → AttemptOutcome) (ext : String → List CleanedPackage)
    (extract_packages : Bool) (max_retries : ℕ) :
    ScrapeResult → ℕ → ℕ → ScrapeResult × List ℕ
  | result, _, 0 => (result, [])
  | result, attempt, r + 1 =>
    match env attempt with
    | .ok html =>
      ({ result with
          html_length := html.length
          packages := if extract_packages then ext html else result.packages
          success := true }, [])
    | .timeout =>
      let rest := scrapeGo env ext extract_packages max_retries
        { result with error := some "timeout" } (attempt + 1) r
      if attempt < max_retries then (rest.1, 2 ^ attempt :: rest.2) else rest
    | .exn msg =>
      let rest := scrapeGo env ext extract_packages max_retries
        { result with error := some msg } (attempt + 1) r
      if attempt < max_retries then (rest.1, 2 ^ attempt :: rest.2) else rest

/-- The initial `result` dict built at the top of `scrape_agency`. -/
def initResult (url agency_name mode : String) : ScrapeResult :=
  { url := url
    agency_name := agency_name
    success := false
    packages := []
    error := none
    html_length := 0
    mode := mode }

/-- `ScraperEngine.scrape_agency` for an engine in state `st`. -/
def scrape_agency (st : EngineState) (env : ℕ → AttemptOutcome)
    (ext : String → List CleanedPackage) (max_retries : ℕ) (url agency_name : String)
    (extract_packages : Bool) : ScrapeResult × List ℕ :=
  scrapeGo env ext extract_packages max_retries
    (initResult url agency_name st.fallback_mode) 1 max_retries

/-! ### Helper lemmas -/

theorem strTitleAux_length : ∀ (b : Bool) (cs : List Char), (strTitleAux b cs).length = cs.length
  | _, [] => rfl
  | _, _ :: cs => by
    simp only [strTitleAux, List.length_cons]
    rw [strTitleAux_length]

theorem strTitle_eq_empty_iff (s : String) : strTitle s = "" ↔ s = "" := by
  constructor
  · intro h
    have hd : strTitleAux false s.data = [] := congrArg String.data h
    have hlen := strTitleAux_length false s.data
    rw [hd] at hlen
    have hnil : s.data = [] := List.length_eq_zero.mp hlen.symm
    cases s
    simp_all
  · intro h; subst h; rfl

theorem truncateTitle_eq_empty_iff (s : String) : truncateTitle s = "" ↔ s = "" := by
  unfold truncateTitle
  split
  · rename_i hlen
    constructor
    · intro h
      have hd : (strTake s 197 ++ "...").data = [] := by rw [h]
      rw [String.data_append] at hd
      rcases List.append_eq_nil.mp hd with ⟨-, h2⟩
      simp [String.data] at h2
    · intro h
      subst h
      simp [String.length] at hlen
  · exact Iff.rfl

theorem clean_title_eq_empty_iff (t : String) :
    _clean_title t = "" ↔ (t ≠ "" ∧ collapseWs t = "") := by
  unfold _clean_title
  split
  · rename_i h
    subst h
    constructor
    · intro h2
      exact absurd h2 (by decide)
    · rintro ⟨h2, -⟩
      exact absurd rfl h2
  · rename_i h
    rw [truncateTitle_eq_empty_iff, strTitle_eq_empty_iff]
    exact ⟨fun h2 => ⟨h, h2⟩, fun h2 => h2.2⟩

theorem validate_eq_false_iff (p : NormalizedPackage) :
    _validate_package p = false ↔
      p.package_title = "" ∨ p.price_in_inr < 1000 ∨ p.price_in_inr > 10000000 ∨
        p.duration_days < 1 ∨ p.duration_days > 90 ∨ p.destinations = [] := by
  unfold _validate_package
  split_ifs with h1 h2 h3 h4 h5 h6
  · simp [h1]
  · have : p.price_in_inr < 1000 := by linarith
    simp [this]
  · have : p.duration_days < 1 := by omega
    simp [this]
  · simp [h4]
  · rcases h5 with h5 | h5 <;> simp [h5]
  · rcases h6 with h6 | h6 <;> simp [h6]
  · push_neg at h5 h6
    simp only [Bool.false_eq_true, false_iff]
    push_neg
    exact ⟨h1, h5.1, h5.2, by omega, by omega, h4⟩

/-! ### C1 -/

/-- A raw listing with a perfectly valid title but zero price and zero
duration: the claim says it is normalized; the code rejects it. -/
def rawZeroNumeric : RawListing :=
  { title := "Goa Beach Tour Deluxe"
    price_inr := 0
    duration_days := 0
    destinations := ["Goa"] }

/-- A raw listing with an empty title but valid numeric fields: the claim says
it is rejected; the code defaults the title and accepts it. -/
def rawEmptyTitle : RawListing :=
  { title := ""
    price_inr := 5000
    duration_days := 5
    destinations := ["Goa"] }

/-- C1 counterexample: a listing with a valid (>= 5 characters) title but zero
price and zero duration is rejected by `normalize_package` (the claim says it
must be accepted), and a listing with an empty title but valid numeric fields
is accepted with the default title (the claim says it must be rejected). -/
theorem c1_counterexample :
    (normalize_package rawZeroNumeric 1).isNone = true ∧
      (normalize_package rawEmptyTitle 1).isSome = true :=
  ⟨by decide, by decide⟩

/-- C1 (amended): `normalize_package` rejects a raw listing exactly when its
cleaned title is empty (which happens only for a non-empty, whitespace-only
raw title — an empty raw title defaults to "Untitled Package"), or its price
is below 1000 or above 10000000 (in particular price 0 is rejected), or its
duration is below 1 or above 90 days (in particular duration 0 is rejected),
or its destination list normalizes to empty. There is no 5-character minimum
on titles. -/
theorem c1_theorem : ∀ (raw : RawListing) (agency_id : ℕ),
    normalize_package raw agency_id = none ↔
      (raw.title ≠ "" ∧ collapseWs raw.title = "") ∨
        raw.price_inr < 1000 ∨ raw.price_inr > 10000000 ∨
        raw.duration_days < 1 ∨ raw.duration_days > 90 ∨
        _normalize_destinations raw.destinations = [] := by
  intro raw agency_id
  unfold normalize_package
  rw [← clean_title_eq_empty_iff]
  have hfields :
      (normalizedOf raw agency_id).package_title = _clean_title raw.title ∧
        (normalizedOf raw agency_id).price_in_inr = raw.price_inr ∧
        (normalizedOf raw agency_id).duration_days = raw.duration_days ∧
        (normalizedOf raw agency_id).destinations = _normalize_destinations raw.destinations :=
    ⟨rfl, rfl, rfl, rfl⟩
  obtain ⟨hp1, hp2, hp3, hp4⟩ := hfields
  split
  · rename_i h
    simp only [reduceCtorEq, false_iff]
    intro hcon
    have hfalse : _validate_package (normalizedOf raw agency_id) = false := by
      rw [validate_eq_false_iff, hp1, hp2, hp3, hp4]
      exact hcon
    rw [h] at hfalse
    exact absurd hfalse (by decide)
  · rename_i h
    simp only [true_iff]
    have hf : _validate_package (normalizedOf raw agency_id) = false := by
      rcases Bool.eq_false_or_eq_true (_validate_package (normalizedOf raw agency_id)) with h2 | h2
      · exact absurd h2 h
      · exact h2
    rw [validate_eq_false_iff, hp1, hp2, hp3, hp4] at hf
    exact hf

/-- C1 witness: the amended characterization evaluated at the two concrete
listings above. -/
theorem c1_witness :
    normalize_package rawZeroNumeric 1 = none ∧
      ¬ normalize_package rawEmptyTitle 1 = none :=
  ⟨(c1_theorem rawZeroNumeric 1).mpr (by decide),
    fun h => by
      have := (c1_theorem rawEmptyTitle 1).mp h
      revert this
      decide⟩

/-! ### C2 -/

theorem lowerSet_ne_empty_of_ne_nil {l : List String} (h : l ≠ []) : lowerSet l ≠ ∅ := by
  intro hcon
  rw [lowerSet, List.toFinset_eq_empty_iff, List.map_eq_nil] at hcon
  exact h hcon

/-- C2: destination-match score — 0.5 when the intent lists no destinations;
0 when the intent has destinations but the package has none, or the
case-insensitive destination sets do not intersect; exactly 1 when the two
destination sets are equal (case-insensitive, any order); and otherwise the
intersection size divided by the number of distinct intent destinations. -/
theorem c2_theorem : ∀ (pkg : PackageRecord) (intent : ParsedIntent),
    (intent.destinations = [] → _score_destination_match pkg intent = 1/2) ∧
    (intent.destinations ≠ [] → pkg.destinations = [] →
      _score_destination_match pkg intent = 0) ∧
    (intent.destinations ≠ [] →
      lowerSet pkg.destinations ∩ lowerSet intent.destinations = ∅ →
      _score_destination_match pkg intent = 0) ∧
    (intent.destinations ≠ [] → lowerSet pkg.destinations = lowerSet intent.destinations →
      _score_destination_match pkg intent = 1) ∧
    (intent.destinations ≠ [] →
      lowerSet pkg.destinations ∩ lowerSet intent.destinations ≠ ∅ →
      lowerSet pkg.destinations ≠ lowerSet intent.destinations →
      _score_destination_match pkg intent =
        ((lowerSet pkg.destinations ∩ lowerSet intent.destinations).card : ℚ) /
          ((lowerSet intent.destinations).card : ℚ)) := by
  intro pkg intent
  refine ⟨?_, ?_, ?_, ?_, ?_⟩
  · intro h
    simp [_score_destination_match, h]
  · intro h hp
    have hset : lowerSet pkg.destinations = ∅ := by simp [lowerSet, hp]
    simp [_score_destination_match, h, hset]
  · intro h hover
    rcases eq_or_ne (lowerSet pkg.destinations) ∅ with hset | hset
    · simp [_score_destination_match, h, hset]
    · simp [_score_destination_match, h, hset, hover]
  · intro h heq
    have hint : lowerSet intent.destinations ≠ ∅ := lowerSet_ne_empty_of_ne_nil h
    have hset : lowerSet pkg.destinations ≠ ∅ := by rw [heq]; exact hint
    have hover : lowerSet pkg.destinations ∩ lowerSet intent.destinations ≠ ∅ := by
      rw [heq, Finset.inter_self]
      exact hint
    simp [_score_destination_match, h, hset, hover, heq, hint]
  · intro h hover hne
    have hset : lowerSet pkg.destinations ≠ ∅ := by
      intro hcon
      rw [hcon, Finset.empty_inter] at hover
      exact hover rfl
    have hint : lowerSet intent.destinations ≠ ∅ := lowerSet_ne_empty_of_ne_nil h
    have hcardpos : 0 < (lowerSet intent.destinations).card :=
      Finset.card_pos.mpr (Finset.nonempty_iff_ne_empty.mpr hint)
    have hle : ((lowerSet pkg.destinations ∩ lowerSet intent.destinations).card : ℚ) /
        ((lowerSet intent.destinations).card : ℚ) ≤ 1 := by
      rw [div_le_one (by exact_mod_cast hcardpos)]
      exact_mod_cast Finset.card_le_card Finset.inter_subset_right
    simp only [_score_destination_match, if_neg h, if_neg hset, if_neg hover, if_neg hne]
    exact min_eq_left hle

/-- C2 witness: the characterization evaluated on concrete packages and
intents covering all five branches. -/
theorem c2_witness :
    _score_destination_match { destinations := ["Manali"] } { destinations := [] } = 1/2 ∧
    _score_destination_match { destinations := ([] : List String) }
      { destinations := ["Manali"] } = 0 ∧
    _score_destination_match { destinations := ["Goa"] } { destinations := ["Manali"] } = 0 ∧
    _score_destination_match { destinations := ["KASOL", "manali"] }
      { destinations := ["Manali", "Kasol"] } = 1 ∧
    _score_destination_match { destinations := ["Manali", "Goa"] }
      { destinations := ["Manali", "Kasol"] } = 1/2 := by
  refine ⟨(c2_theorem _ _).1 rfl, (c2_theorem _ _).2.1 (by decide) rfl,
    (c2_theorem _ _).2.2.1 (by decide) (by decide),
    (c2_theorem _ _).2.2.2.1 (by decide) (by decide), ?_⟩
  have h := (c2_theorem { destinations := ["Manali", "Goa"] }
    { destinations := ["Manali", "Kasol"] }).2.2.2.2 (by decide) (by decide) (by decide)
  rw [h]
  have hc1 : (lowerSet ({ destinations := ["Manali", "Goa"]} : PackageRecord).destinations ∩
      lowerSet ({ destinations := ["Manali", "Kasol"]} : ParsedIntent).destinations).card = 1 := by
    decide
  have hc2 : (lowerSet ({ destinations := ["Manali", "Kasol"]} : ParsedIntent).destinations).card
      = 2 := by decide
  rw [hc1, hc2]
  norm_num

/-! ### C3 -/

/-- C3: budget-match score for a positive budget and a positive price — a
price equal to the budget scores exactly 1 (it is inside the 5% band); a price
more than 50% over budget scores exactly 0; a price below the 5% band scores
`0.8 + (price/budget) * 0.2`; hence every below-budget positive price scores
at least 0.8. -/
theorem c3_theorem : ∀ (pkg : PackageRecord) (intent : ParsedIntent) (budget : ℚ),
    intent.budget_per_person = some budget → 0 < budget → 0 < pkg.price_in_inr →
      ((pkg.price_in_inr = budget → _score_budget_match pkg intent = 1) ∧
        ((pkg.price_in_inr - budget) / budget > 1/2 → _score_budget_match pkg intent = 0) ∧
        (pkg.price_in_inr < 19/20 * budget →
          _score_budget_match pkg intent = 4/5 + pkg.price_in_inr / budget * (1/5)) ∧
        (pkg.price_in_inr < budget → 4/5 ≤ _score_budget_match pkg intent)) := by
  intro pkg intent budget hbud hb hp
  have hbne : ¬ budget = 0 := ne_of_gt hb
  have hpne : ¬ pkg.price_in_inr = 0 := ne_of_gt hp
  simp only [_score_budget_match, hbud, if_neg hbne, if_neg hpne]
  refine ⟨?_, ?_, ?_, ?_⟩
  · intro heq
    rw [if_pos]
    rw [heq, sub_self, abs_zero, zero_div]
    norm_num
  · intro hover
    have hhalf : budget / 2 < pkg.price_in_inr - budget := by
      rw [gt_iff_lt, lt_div_iff hb] at hover
      linarith
    have hgt : budget < pkg.price_in_inr := by linarith
    have habs : |pkg.price_in_inr - budget| = pkg.price_in_inr - budget :=
      abs_of_pos (by linarith)
    split_ifs with h1 h2 h3 h4 h5
    · exfalso; rw [habs] at h1; linarith
    · exfalso; linarith
    · exfalso; linarith
    · exfalso; linarith
    · exfalso; linarith
    · rfl
  · intro hlt
    have hblt : pkg.price_in_inr < budget := by linarith
    have habs : |pkg.price_in_inr - budget| = budget - pkg.price_in_inr := by
      rw [abs_sub_comm]
      exact abs_of_pos (by linarith)
    have h1 : ¬ (|pkg.price_in_inr - budget| / budget ≤ 1/20) := by
      rw [habs, div_le_iff hb]
      push_neg
      linarith
    rw [if_neg h1, if_pos hblt]
  · intro hblt
    rcases le_or_lt (|pkg.price_in_inr - budget| / budget) (1/20) with h1 | h1
    · rw [if_pos h1]
      norm_num
    · rw [if_neg (not_le.mpr h1), if_pos hblt]
      have hpos : 0 < pkg.price_in_inr / budget := div_pos hp hb
      linarith

/-- A package priced exactly at the 20000 budget. -/
def pkgAtBudget : PackageRecord := { price_in_inr := 20000 }

/-- A package 55% over the 20000 budget. -/
def pkgOverBudget : PackageRecord := { price_in_inr := 31000 }

/-- A package at half the 20000 budget. -/
def pkgUnderBudget : PackageRecord := { price_in_inr := 10000 }

/-- An intent with a 20000 per-person budget. -/
def intentBudget20k : ParsedIntent := { budget_per_person := some 20000 }

/-- C3 witness: the budget-match characterization evaluated at a 20000 budget
with prices 20000 (score 1), 31000 (score 0) and 10000 (score 0.9 ≥ 0.8). -/
theorem c3_witness :
    _score_budget_match pkgAtBudget intentBudget20k = 1 ∧
      _score_budget_match pkgOverBudget intentBudget20k = 0 ∧
      _score_budget_match pkgUnderBudget intentBudget20k = 9/10 ∧
      4/5 ≤ _score_budget_match pkgUnderBudget intentBudget20k := by
  refine ⟨(c3_theorem pkgAtBudget intentBudget20k 20000 rfl (by norm_num)
      (by norm_num [pkgAtBudget])).1 (by norm_num [pkgAtBudget]), ?_, ?_, ?_⟩
  · exact (c3_theorem pkgOverBudget intentBudget20k 20000 rfl (by norm_num)
      (by norm_num [pkgOverBudget])).2.1 (by norm_num [pkgOverBudget])
  · have h := (c3_theorem pkgUnderBudget intentBudget20k 20000 rfl (by norm_num)
      (by norm_num [pkgUnderBudget])).2.2.1 (by norm_num [pkgUnderBudget])
    rw [h]
    norm_num [pkgUnderBudget]
  · exact (c3_theorem pkgUnderBudget intentBudget20k 20000 rfl (by norm_num)
      (by norm_num [pkgUnderBudget])).2.2.2 (by norm_num [pkgUnderBudget])

/-! ### C4 and C5: duration-match score -/

theorem dsod_le_one {flex diff : ℤ} (hflex : 0 ≤ flex) (hd : 0 ≤ diff) :
    durationScoreOfDiff flex diff ≤ 1 := by
  unfold durationScoreOfDiff
  split_ifs with h0 h1 h2
  · norm_num
  · have hq : (0 : ℚ) ≤ (diff : ℚ) / ((flex : ℚ) + 1) := by
      apply div_nonneg
      · exact_mod_cast hd
      · have : (0 : ℚ) ≤ (flex : ℚ) := by exact_mod_cast hflex
        linarith
    linarith
  · norm_num
  · have hfd : flex < diff := by omega
    have hd2 : diff < flex * 2 := by omega
    have hfpos : 0 < flex := by omega
    have hq : (0 : ℚ) ≤ (diff : ℚ) / ((flex * 2 : ℤ) : ℚ) := by
      apply div_nonneg
      · exact_mod_cast hd
      · exact_mod_cast (by omega : (0 : ℤ) ≤ flex * 2)
    linarith

theorem dsod_nonneg {flex diff : ℤ} (hflex : 0 ≤ flex) (hd : 0 ≤ diff) :
    0 ≤ durationScoreOfDiff flex diff := by
  unfold durationScoreOfDiff
  split_ifs with h0 h1 h2
  · norm_num
  · have hfq : (0 : ℚ) < (flex : ℚ) + 1 := by
      have : (0 : ℚ) ≤ (flex : ℚ) := by exact_mod_cast hflex
      linarith
    have hlt : (diff : ℚ) / ((flex : ℚ) + 1) < 1 := by
      rw [div_lt_one hfq]
      have : (diff : ℚ) ≤ (flex : ℚ) := by exact_mod_cast h1
      linarith
    have hnn : (0 : ℚ) ≤ (diff : ℚ) / ((flex : ℚ) + 1) :=
      div_nonneg (by exact_mod_cast hd) (le_of_lt hfq)
    linarith
  · norm_num
  · have hfd : flex < diff := by omega
    have hd2 : diff < flex * 2 := by omega
    have hfpos : (0 : ℚ) < ((flex * 2 : ℤ) : ℚ) := by exact_mod_cast (by omega : (0:ℤ) < flex * 2)
    have hlt : (diff : ℚ) / ((flex * 2 : ℤ) : ℚ) < 1 := by
      rw [div_lt_one hfpos]
      exact_mod_cast hd2
    linarith

theorem dsod_within_ge {flex diff : ℤ} (hflex : 0 ≤ flex) (hd : 0 ≤ diff)
    (hin : diff ≤ flex) : 4/5 ≤ durationScoreOfDiff flex diff := by
  unfold durationScoreOfDiff
  split_ifs with h0
  · norm_num
  · have hfq : (0 : ℚ) < (flex : ℚ) + 1 := by
      have : (0 : ℚ) ≤ (flex : ℚ) := by exact_mod_cast hflex
      linarith
    have hlt : (diff : ℚ) / ((flex : ℚ) + 1) < 1 := by
      rw [div_lt_one hfq]
      have : (diff : ℚ) ≤ (flex : ℚ) := by exact_mod_cast hin
      linarith
    linarith

theorem dsod_beyond_le_half {flex diff : ℤ} (hflex : 0 ≤ flex) (hout : flex < diff) :
    durationScoreOfDiff flex diff ≤ 1/2 := by
  unfold durationScoreOfDiff
  split_ifs with h0 h1 h2
  · omega
  · omega
  · norm_num
  · have hfpos : 0 < flex := by omega
    have hden : (0 : ℚ) < ((flex * 2 : ℤ) : ℚ) := by exact_mod_cast (by omega : (0:ℤ) < flex * 2)
    have hgt : ((flex : ℤ) : ℚ) < (diff : ℚ) := by exact_mod_cast hout
    have hhalf : (1 : ℚ)/2 < (diff : ℚ) / ((flex * 2 : ℤ) : ℚ) := by
      rw [lt_div_iff hden]
      push_cast
      linarith
    linarith

theorem dsod_antitone {flex a b : ℤ} (hflex : 0 ≤ flex) (ha : 0 ≤ a) (hab : a ≤ b) :
    durationScoreOfDiff flex b ≤ durationScoreOfDiff flex a := by
  rcases eq_or_ne a 0 with ha0 | ha0
  · subst ha0
    have h1 : durationScoreOfDiff flex 0 = 1 := by simp [durationScoreOfDiff]
    rw [h1]
    exact dsod_le_one hflex (by omega)
  · have hapos : 0 < a := lt_of_le_of_ne ha (Ne.symm ha0)
    have hbpos : 0 < b := lt_of_lt_of_le hapos hab
    rcases le_or_lt b flex with hbf | hbf
    · have haf : a ≤ flex := le_trans hab hbf
      have ea : durationScoreOfDiff flex a = 1 - ((a : ℚ) / ((flex : ℚ) + 1)) * (1/5) := by
        unfold durationScoreOfDiff
        rw [if_neg (by omega), if_pos haf]
      have eb : durationScoreOfDiff flex b = 1 - ((b : ℚ) / ((flex : ℚ) + 1)) * (1/5) := by
        unfold durationScoreOfDiff
        rw [if_neg (by omega), if_pos hbf]
      have hfq : (0 : ℚ) < (flex : ℚ) + 1 := by
        have : (0 : ℚ) ≤ (flex : ℚ) := by exact_mod_cast hflex
        linarith
      have hdivle : (a : ℚ) / ((flex : ℚ) + 1) ≤ (b : ℚ) / ((flex : ℚ) + 1) :=
        (div_le_div_right hfq).mpr (by exact_mod_cast hab)
      rw [ea, eb]
      linarith
    · rcases le_or_lt a flex with haf | haf
      · have h1 : durationScoreOfDiff flex b ≤ 1/2 := dsod_beyond_le_half hflex hbf
        have h2 : 4/5 ≤ durationScoreOfDiff flex a := dsod_within_ge hflex ha haf
        linarith
      · rcases le_or_lt (flex * 2) b with hb2 | hb2
        · have h1 : durationScoreOfDiff flex b = 0 := by
            unfold durationScoreOfDiff
            rw [if_neg (by omega), if_neg (by omega), if_pos (by omega)]
          rw [h1]
          exact dsod_nonneg hflex ha
        · have ha2 : a < flex * 2 := lt_of_le_of_lt hab hb2
          have hfpos : 0 < flex := by omega
          have hden : (0 : ℚ) < ((flex * 2 : ℤ) : ℚ) := by
            exact_mod_cast (by omega : (0:ℤ) < flex * 2)
          have ea : durationScoreOfDiff flex a = 1 - (a : ℚ) / ((flex * 2 : ℤ) : ℚ) := by
            unfold durationScoreOfDiff
            rw [if_neg (by omega), if_neg (by omega), if_neg (by omega)]
          have eb : durationScoreOfDiff flex b = 1 - (b : ℚ) / ((flex * 2 : ℤ) : ℚ) := by
            unfold durationScoreOfDiff
            rw [if_neg (by omega), if_neg (by omega), if_neg (by omega)]
          have hdivle : (a : ℚ) / ((flex * 2 : ℤ) : ℚ) ≤ (b : ℚ) / ((flex * 2 : ℤ) : ℚ) :=
            (div_le_div_right hden).mpr (by exact_mod_cast hab)
          rw [ea, eb]
          linarith

/-- An intent asking for 5 days with the default 2-day flexibility. -/
def intentDur5Flex2 : ParsedIntent := { duration_days := some 5, flexibility_days := 2 }

/-- A 7-day package: diff = 2 = flexibility. -/
def pkgDur7 : PackageRecord := { duration_days := 7 }

/-- C4 counterexample: at the flexibility boundary (intent 5 days,
flexibility 2, package 7 days, diff = 2) the code scores
`1 - (2/3)*0.2 = 13/15 ≈ 0.867`, not the 0.8 the claim asserts the formula
reaches there. -/
theorem c4_counterexample :
    _score_duration_match pkgDur7 intentDur5Flex2 = 13/15 ∧ (13/15 : ℚ) ≠ 4/5 := by
  constructor
  · show durationScoreOfDiff 2 |(7 : ℤ) - 5| = 13/15
    norm_num [durationScoreOfDiff]
  · norm_num

/-- C4 (amended): duration-match score — 0.5 when the intent has no duration;
0 when the package duration is 0; 1 when the durations agree; for
`0 < diff ≤ flexibility` the score is `1 - (diff/(flexibility+1)) * 0.2`,
whose value at the boundary `diff = flexibility` is
`1 - 0.2*flexibility/(flexibility+1)`, strictly above 0.8 (it approaches 0.8
only in the limit); for `flexibility < diff < 2*flexibility` the score is
`1 - diff/(2*flexibility)`, decaying to 0 at `2*flexibility`; and at or
beyond `diff = 2*flexibility` the score is exactly 0. -/
theorem c4_theorem : ∀ (pkg : PackageRecord) (intent : ParsedIntent),
    (intent.duration_days = none → _score_duration_match pkg intent = 1/2) ∧
    (∀ t : ℤ, intent.duration_days = some t → t ≠ 0 → pkg.duration_days = 0 →
      _score_duration_match pkg intent = 0) ∧
    (∀ t : ℤ, intent.duration_days = some t → t ≠ 0 → pkg.duration_days ≠ 0 →
      pkg.duration_days = t → _score_duration_match pkg intent = 1) ∧
    (∀ t : ℤ, intent.duration_days = some t → t ≠ 0 → pkg.duration_days ≠ 0 →
      0 < |pkg.duration_days - t| → |pkg.duration_days - t| ≤ intent.flexibility_days →
      _score_duration_match pkg intent =
        1 - ((|pkg.duration_days - t| : ℤ) : ℚ) / ((intent.flexibility_days : ℚ) + 1) * (1/5)) ∧
    (∀ t : ℤ, intent.duration_days = some t → t ≠ 0 → pkg.duration_days ≠ 0 →
      0 < intent.flexibility_days → |pkg.duration_days - t| = intent.flexibility_days →
      _score_duration_match pkg intent =
          1 - (intent.flexibility_days : ℚ) / ((intent.flexibility_days : ℚ) + 1) * (1/5) ∧
        4/5 < _score_duration_match pkg intent) ∧
    (∀ t : ℤ, intent.duration_days = some t → t ≠ 0 → pkg.duration_days ≠ 0 →
      intent.flexibility_days < |pkg.duration_days - t| →
      |pkg.duration_days - t| < intent.flexibility_days * 2 →
      _score_duration_match pkg intent =
        1 - ((|pkg.duration_days - t| : ℤ) : ℚ) / ((intent.flexibility_days * 2 : ℤ) : ℚ)) ∧
    (∀ t : ℤ, intent.duration_days = some t → t ≠ 0 → pkg.duration_days ≠ 0 →
      0 ≤ intent.flexibility_days → 0 < |pkg.duration_days - t| →
      intent.flexibility_days * 2 ≤ |pkg.duration_days - t| →
      _score_duration_match pkg intent = 0) := by
  intro pkg intent
  refine ⟨?_, ?_, ?_, ?_, ?_, ?_, ?_⟩
  · intro h
    simp [_score_duration_match, h]
  · intro t ht ht0 hp
    simp [_score_duration_match, ht, ht0, hp]
  · intro t ht ht0 hp heq
    simp only [_score_duration_match, ht, if_neg ht0, if_neg hp]
    rw [heq, sub_self, abs_zero]
    simp [durationScoreOfDiff]
  · intro t ht ht0 hp hpos hin
    simp only [_score_duration_match, ht, if_neg ht0, if_neg hp]
    unfold durationScoreOfDiff
    rw [if_neg (by omega), if_pos hin]
  · intro t ht ht0 hp hfpos heq
    have hval : _score_duration_match pkg intent =
        1 - (intent.flexibility_days : ℚ) / ((intent.flexibility_days : ℚ) + 1) * (1/5) := by
      simp only [_score_duration_match, ht, if_neg ht0, if_neg hp]
      unfold durationScoreOfDiff
      rw [if_neg (by omega), if_pos (by omega), heq]
    refine ⟨hval, ?_⟩
    rw [hval]
    have hfq : (0 : ℚ) < (intent.flexibility_days : ℚ) + 1 := by
      have : (0 : ℚ) ≤ (intent.flexibility_days : ℚ) := by
        exact_mod_cast le_of_lt hfpos
      linarith
    have hlt : (intent.flexibility_days : ℚ) / ((intent.flexibility_days : ℚ) + 1) < 1 := by
      rw [div_lt_one hfq]
      linarith
    linarith
  · intro t ht ht0 hp hout hin2
    simp only [_score_duration_match, ht, if_neg ht0, if_neg hp]
    unfold durationScoreOfDiff
    rw [if_neg (by omega), if_neg (by omega), if_neg (by omega)]
  · intro t ht ht0 hp hflex hpos h2f
    simp only [_score_duration_match, ht, if_neg ht0, if_neg hp]
    unfold durationScoreOfDiff
    rw [if_neg (by omega), if_neg (by omega), if_pos (by omega)]

/-- C4 witness: the amended characterization evaluated on intent 5 days,
flexibility 2, against package durations 0, 5, 7, 9 and an intent without a
duration. -/
theorem c4_witness :
    _score_duration_match { duration_days := 5 } { } = 1/2 ∧
      _score_duration_match { duration_days := 0 } intentDur5Flex2 = 0 ∧
      _score_duration_match { duration_days := 5 } intentDur5Flex2 = 1 ∧
      _score_duration_match pkgDur7 intentDur5Flex2 =
        1 - ((2 : ℚ) / 3) * (1/5) ∧
      _score_duration_match { duration_days := 9 } intentDur5Flex2 = 0 := by
  refine ⟨(c4_theorem _ _).1 rfl, (c4_theorem _ _).2.1 5 rfl (by norm_num) rfl,
    (c4_theorem _ _).2.2.1 5 rfl (by norm_num) (by norm_num [intentDur5Flex2]) rfl, ?_, ?_⟩
  · have h := (c4_theorem pkgDur7 intentDur5Flex2).2.2.2.1 5 rfl (by norm_num)
      (by norm_num [pkgDur7]) (by norm_num [pkgDur7]) (by norm_num [pkgDur7, intentDur5Flex2])
    rw [h]
    norm_num [pkgDur7, intentDur5Flex2]
  · exact (c4_theorem _ _).2.2.2.2.2.2 5 rfl (by norm_num) (by norm_num)
      (by norm_num [intentDur5Flex2]) (by norm_num) (by norm_num [intentDur5Flex2])

/-! ### C5 -/

/-- C5: for a fixed intent duration and a non-negative flexibility, the
duration-match score is monotonically non-increasing in
`|packageDays - intentDays|` over positive package durations, including
across the boundary between the within-flexibility and beyond-flexibility
branches. -/
theorem c5_theorem : ∀ (pkg : PackageRecord) (intent : ParsedIntent) (t d1 d2 : ℤ),
    intent.duration_days = some t → 0 ≤ intent.flexibility_days → 0 < d1 → 0 < d2 →
    |d1 - t| ≤ |d2 - t| →
    _score_duration_match { pkg with duration_days := d2 } intent ≤
      _score_duration_match { pkg with duration_days := d1 } intent := by
  intro pkg intent t d1 d2 hdur hflex h1 h2 hle
  rcases eq_or_ne t 0 with ht | ht
  · subst ht
    simp [_score_duration_match, hdur]
  · simp only [_score_duration_match, hdur, if_neg ht]
    rw [if_neg (show ¬ ({ pkg with duration_days := d1} : PackageRecord).duration_days = 0 by
      simpa using ne_of_gt h1)]
    rw [if_neg (show ¬ ({ pkg with duration_days := d2} : PackageRecord).duration_days = 0 by
      simpa using ne_of_gt h2)]
    exact dsod_antitone hflex (abs_nonneg _) hle

/-- C5 witness: monotonicity applied at intent 5 days, flexibility 2,
comparing package durations 7 (diff 2) and 8 (diff 3) across the branch
boundary. -/
theorem c5_witness :
    _score_duration_match { duration_days := 8 } intentDur5Flex2 ≤
      _score_duration_match { duration_days := 7 } intentDur5Flex2 := by
  have h := c5_theorem { } intentDur5Flex2 5 7 8 rfl (by norm_num [intentDur5Flex2])
    (by norm_num) (by norm_num) (by norm_num)
  simpa using h

/-! ### C6 -/

/-- A normalized listing with a usable (longer than 10 characters) URL. -/
def dupListing : NormalizedPackage :=
  { agency_id := 1
    package_title := "Goa Adventure Tour"
    url := "https://agency.example/goa-tour"
    price_in_inr := 5000
    duration_days := 5
    destinations := ["Goa"]
    inclusions := []
    exclusions := []
    highlights := []
    is_active := true }

/-- A normalized listing with no URL. -/
def dupNoUrlListing : NormalizedPackage :=
  { agency_id := 1
    package_title := "Manali Trek Special"
    url := ""
    price_in_inr := 7000
    duration_days := 4
    destinations := ["Manali"]
    inclusions := []
    exclusions := []
    highlights := []
    is_active := true }

/-- C6 counterexample: starting from an empty table, a single batch holding
the same listing twice (identical usable URL) persists two rows with that
URL, and a batch holding the same URL-less listing twice (identical title and
duration) persists two rows with that key — not the exactly-one the claim
requires. The dedup queries run with `autoflush=False`, so rows added earlier
in the same batch are invisible to them. -/
theorem c6_counterexample :
    ((bulk_create_packages [] 1 [dupListing, dupListing]).2.filter
        (fun q => q.url == dupListing.url)).length = 2 ∧
      ((bulk_create_packages [] 1 [dupNoUrlListing, dupNoUrlListing]).2.filter
        (fun q => q.package_title == dupNoUrlListing.package_title &&
          q.duration_days == dupNoUrlListing.duration_days)).length = 2 ∧
      (2 : ℕ) ≠ 1 := by
  refine ⟨by decide, by decide, by decide⟩

/-- C6 (amended): dedup in `bulk_create_packages` works only against rows
already persisted before the call — a listing whose usable URL (present,
longer than 10 characters) matches a pre-existing row of the agency, or whose
(title, duration) matches one, is skipped and contributes nothing to the
batch result; but because the session never autoflushes, duplicates inside a
single batch are not detected: a listing matching no pre-existing row is
inserted as new each time it occurs, so two identical new listings in one
batch are both persisted. -/
theorem c6_theorem :
    (∀ (db0 : List PackageRow) (aid : ℕ) (xs ys : List NormalizedPackage)
        (p : NormalizedPackage),
      (dupByUrl db0 aid p || dupByTitle db0 aid p) = true →
      bulk_create_packages db0 aid (xs ++ p :: ys) = bulk_create_packages db0 aid (xs ++ ys)) ∧
    (∀ (db0 : List PackageRow) (aid : ℕ) (p : NormalizedPackage),
      (dupByUrl db0 aid p || dupByTitle db0 aid p) = false →
      bulk_create_packages db0 aid [p, p] = (2, db0 ++ [toRow aid p, toRow aid p])) := by
  constructor
  · intro db0 aid xs ys p hdup
    have hgo : ∀ xs : List NormalizedPackage,
        bulkGo db0 aid (xs ++ p :: ys) = bulkGo db0 aid (xs ++ ys) := by
      intro xs
      induction xs with
      | nil =>
        simp only [List.nil_append]
        rw [bulkGo, if_pos hdup]
      | cons x xs ih =>
        simp only [List.cons_append]
        rw [bulkGo, bulkGo, ih]
    unfold bulk_create_packages
    rw [hgo]
  · intro db0 aid p hdup
    unfold bulk_create_packages
    rw [bulkGo, if_neg (by simp [hdup]), bulkGo, if_neg (by simp [hdup]), bulkGo]

/-- C6 witness: the amended theorem applied concretely — a listing whose URL
already exists in the table is skipped, and the same listing twice in one
batch over an empty table is persisted twice. -/
theorem c6_witness :
    bulk_create_packages [toRow 1 dupListing] 1 [dupListing] =
        bulk_create_packages [toRow 1 dupListing] 1 [] ∧
      bulk_create_packages [] 1 [dupListing, dupListing] =
        (2, [toRow 1 dupListing, toRow 1 dupListing]) := by
  constructor
  · exact c6_theorem.1 [toRow 1 dupListing] 1 [] [] dupListing (by decide)
  · have h := c6_theorem.2 [] 1 dupListing (by decide)
    simpa using h

/-! ### C7 -/

/-- C7 counterexample: under an environment in which every Gemini response is
valid JSON that is not an array, the code calls the extraction model three
times (the full retry ceiling) before falling through to the fallback tier,
instead of abandoning the tier after the first call as the claim requires. -/
theorem c7_counterexample :
    extract_packages_from_html (fun _ => GeminiOutcome.jsonOther) =
        { tier3 := none, sleeps := [], calls := 3 } ∧ (3 : ℕ) ≠ 1 :=
  ⟨by decide, by decide⟩

/-- C7 (amended): the tier-3 extraction call retries on rate-limit/quota
errors with back-off `5 * 2^attempt` seconds up to the 3-attempt ceiling, and
two rate-limit failures followed by a well-formed JSON-array response yield
the tier-3 results (no fall-through); any other exception — including a JSON
decode failure — abandons the tier immediately after a single call; but a
response that parses as JSON without being an array is retried (with no
waiting) until the attempt ceiling, after which the tier falls through to the
heuristic fallback. -/
theorem c7_theorem :
    (∀ (env : ℕ → GeminiOutcome) (m0 m1 : String) (pkgs : List GemPackage),
      env 0 = .exn m0 → isRateLimitMsg m0 = true →
      env 1 = .exn m1 → isRateLimitMsg m1 = true →
      env 2 = .jsonList pkgs →
      extract_packages_from_html env =
        { tier3 := some (_clean_packages pkgs), sleeps := [5, 10], calls := 3 }) ∧
    (∀ (env : ℕ → GeminiOutcome) (msg : String),
      env 0 = .exn msg → isRateLimitMsg msg = false →
      extract_packages_from_html env = { tier3 := none, sleeps := [], calls := 1 }) ∧
    (∀ env : ℕ → GeminiOutcome, (∀ a, env a = .jsonOther) →
      extract_packages_from_html env = { tier3 := none, sleeps := [], calls := 3 }) := by
  refine ⟨?_, ?_, ?_⟩
  · intro env m0 m1 pkgs h0 hr0 h1 hr1 h2
    simp only [extract_packages_from_html, extractGo, h0, h1, h2, hr0, hr1, if_true]
    norm_num
  · intro env msg h0 hr0
    simp only [extract_packages_from_html, extractGo, h0, hr0, Bool.false_eq_true, if_false]
  · intro env h
    simp only [extract_packages_from_html, extractGo, h 0, h 1, h 2]

/-- A well-formed Gemini package used by the C7 witness. -/
def gemManali : GemPackage :=
  { package_title := " Manali Adventure 4D "
    price_in_inr := 8000
    duration_days := 4
    destinations := ["Manali"]
    url := "https://x.example/manali" }

/-- An environment that rate-limits twice, then returns a JSON array. -/
def envRateLimitTwice : ℕ → GeminiOutcome
  | 0 => .exn "429 rate limit"
  | 1 => .exn "Resource exhausted: QUOTA"
  | _ => .jsonList [gemManali]

/-- An environment whose first response is a non-transient server error. -/
def envServerError : ℕ → GeminiOutcome
  | 0 => .exn "500 internal server error"
  | _ => .jsonOther

/-- C7 witness: the amended behaviour evaluated on the three concrete
environments (two rate limits then success; a non-transient error; always
non-array JSON). -/
theorem c7_witness :
    extract_packages_from_html envRateLimitTwice =
        { tier3 := some (_clean_packages [gemManali]), sleeps := [5, 10], calls := 3 } ∧
      extract_packages_from_html envServerError =
        { tier3 := none, sleeps := [], calls := 1 } ∧
      extract_packages_from_html (fun _ => GeminiOutcome.jsonOther) =
        { tier3 := none, sleeps := [], calls := 3 } := by
  refine ⟨?_, ?_, ?_⟩
  · exact c7_theorem.1 envRateLimitTwice "429 rate limit" "Resource exhausted: QUOTA"
      [gemManali] rfl (by decide) rfl (by decide) rfl
  · exact c7_theorem.2.1 envServerError "500 internal server error" rfl (by decide)
  · exact c7_theorem.2.2 (fun _ => GeminiOutcome.jsonOther) (fun _ => rfl)

/-! ### C8 -/

/-- The error string a failed attempt leaves in `result["error"]`. -/
def errMsgOf : AttemptOutcome → String
  | .ok _ => ""
  | .timeout => "timeout"
  | .exn msg => msg

/-- When every attempt from `attempt` through `max_retries` fails, the loop
returns the threaded result with the last attempt's error and performs the
back-off sleeps `2^attempt` for every non-final attempt. -/
theorem scrapeGo_all_fail (env : ℕ → AttemptOutcome) (ext : String → List CleanedPackage)
    (flag : Bool) (mr : ℕ) :
    ∀ (r attempt : ℕ) (base : ScrapeResult), 0 < r → attempt + r = mr + 1 →
    (∀ a, attempt ≤ a → a ≤ mr → env a = .timeout ∨ ∃ m, env a = .exn m) →
    scrapeGo env ext flag mr base attempt r =
      ({ base with error := some (errMsgOf (env mr)) },
        (List.range' attempt (r - 1)).map (fun a => 2 ^ a)) := by
  intro r
  induction r with
  | zero =>
    intro attempt base h0
    exact absurd h0 (by norm_num)
  | succ k ih =>
    intro attempt base _ hsum hfail
    have hattempt_le : attempt ≤ mr := by omega
    have hcur := hfail attempt le_rfl hattempt_le
    rcases Nat.eq_zero_or_pos k with hk0 | hkpos
    · subst hk0
      have ha : attempt = mr := by omega
      subst ha
      rcases hcur with hto | ⟨m, hm⟩
      · simp [scrapeGo, hto, errMsgOf]
      · simp [scrapeGo, hm, errMsgOf]
    · have hlt : attempt < mr := by omega
      have hrec := ih (attempt + 1) ?base2 hkpos (by omega) ?hfail2
      case hfail2 =>
        intro a h1 h2
        exact hfail a (by omega) h2
      case base2 =>
        exact { base with error := some (errMsgOf (env attempt)) }
      all_goals {
        rcases hcur with hto | ⟨m, hm⟩
        · simp only [scrapeGo, hto, if_pos hlt]
          rw [show ({ base with error := some "timeout" } : ScrapeResult) =
            { base with error := some (errMsgOf (env attempt)) } by rw [hto]; rfl]
          rw [hrec]
          have hr : k - 0 = k := rfl
          simp only [Nat.add_sub_cancel]
          rw [show (List.range' attempt k).map (fun a => 2 ^ a) =
            2 ^ attempt :: (List.range' (attempt + 1) (k - 1)).map (fun a => 2 ^ a) by
              cases k with
              | zero => omega
              | succ k3 =>
                simp [List.range'] ]
        · simp only [scrapeGo, hm, if_pos hlt]
          rw [show ({ base with error := some m } : ScrapeResult) =
            { base with error := some (errMsgOf (env attempt)) } by rw [hm]; rfl]
          rw [hrec]
          simp only [Nat.add_sub_cancel]
          rw [show (List.range' attempt k).map (fun a => 2 ^ a) =
            2 ^ attempt :: (List.range' (attempt + 1) (k - 1)).map (fun a => 2 ^ a) by
              cases k with
              | zero => omega
              | succ k3 =>
                simp [List.range'] ]
      }

/-- C8: `scrape_agency` never propagates a failure — when every attempt up to
the retry ceiling fails (timeout or exception with a non-empty message), it
returns a structured record with `success = false`, an empty package list and
a non-empty error reason, having slept `2^attempt` seconds after each
non-final attempt; and when browser launch fails entirely, the engine enters
requests mode and a successful static fetch still yields `success = true`
with `mode = "requests"`. -/
theorem c8_theorem :
    (∀ (st : EngineState) (env : ℕ → AttemptOutcome) (ext : String → List CleanedPackage)
        (mr : ℕ) (u an : String),
      0 < mr →
      (∀ a, 1 ≤ a → a ≤ mr → env a = .timeout ∨ ∃ m, env a = .exn m ∧ m ≠ "") →
      (scrape_agency st env ext mr u an true).1.success = false ∧
        (scrape_agency st env ext mr u an true).1.packages = [] ∧
        (∃ e, (scrape_agency st env ext mr u an true).1.error = some e ∧ e ≠ "") ∧
        (scrape_agency st env ext mr u an true).2 =
          (List.range' 1 (mr - 1)).map (fun a => 2 ^ a)) ∧
    (∀ o : LaunchOutcome, o ≠ .ok →
      ∀ (env : ℕ → AttemptOutcome) (ext : String → List CleanedPackage) (mr : ℕ)
        (u an html : String),
      0 < mr → env 1 = .ok html →
      (scrape_agency (aenterState o) env ext mr u an true).1.success = true ∧
        (scrape_agency (aenterState o) env ext mr u an true).1.mode = "requests") := by
  constructor
  · intro st env ext mr u an hmr hfail
    have hfail2 : ∀ a, 1 ≤ a → a ≤ mr → env a = .timeout ∨ ∃ m, env a = .exn m := by
      intro a h1 h2
      rcases hfail a h1 h2 with h | ⟨m, hm, -⟩
      · exact Or.inl h
      · exact Or.inr ⟨m, hm⟩
    have h := scrapeGo_all_fail env ext true mr mr 1
      (initResult u an st.fallback_mode) hmr (by omega) hfail2
    unfold scrape_agency
    rw [h]
    refine ⟨rfl, rfl, ?_, rfl⟩
    refine ⟨errMsgOf (env mr), rfl, ?_⟩
    rcases hfail mr (by omega) le_rfl with hto | ⟨m, hm, hne⟩
    · rw [hto]
      decide
    · rw [hm]
      exact hne
  · intro o ho env ext mr u an html hmr h1
    have hmode : (aenterState o).fallback_mode = "requests" := by
      cases o with
      | ok => exact absurd rfl ho
      | launchFail => rfl
      | startFail => rfl
    cases mr with
    | zero => exact absurd hmr (by norm_num)
    | succ k =>
      constructor
      · simp [scrape_agency, scrapeGo, h1]
      · simp [scrape_agency, scrapeGo, h1, initResult, hmode]

/-- An environment where every fetch attempt raises a connection error. -/
def envAllFail : ℕ → AttemptOutcome := fun _ => .exn "connection reset by peer"

/-- An environment where the first fetch attempt succeeds. -/
def envFirstOk : ℕ → AttemptOutcome := fun _ => .ok "<html><body>ok</body></html>"

/-- C8 witness: the failure shape with three failing attempts (sleeps 2 and
4 seconds), and the requests-mode success after a failed browser launch. -/
theorem c8_witness :
    (scrape_agency (aenterState .ok) envAllFail (fun _ => []) 3 "https://a.example" "A"
        true).1.success = false ∧
      (scrape_agency (aenterState .ok) envAllFail (fun _ => []) 3 "https://a.example" "A"
        true).2 = [2, 4] ∧
      (scrape_agency (aenterState .launchFail) envFirstOk (fun _ => []) 3 "https://a.example"
        "A" true).1.success = true ∧
      (scrape_agency (aenterState .launchFail) envFirstOk (fun _ => []) 3 "https://a.example"
        "A" true).1.mode = "requests" := by
  have h1 := c8_theorem.1 (aenterState .ok) envAllFail (fun _ => []) 3 "https://a.example" "A"
    (by norm_num) (fun a _ _ => Or.inr ⟨"connection reset by peer", rfl, by decide⟩)
  have h2 := c8_theorem.2 .launchFail (by decide) envFirstOk (fun _ => []) 3 "https://a.example"
    "A" "<html><body>ok</body></html>" (by norm_num) rfl
  exact ⟨h1.1, by rw [h1.2.2.2]; decide, h2.1, h2.2⟩

/-! ### C9: ranking output shape and order -/

instance : IsTotal ScoredEntry scoredGE :=
  ⟨fun a b => le_total b.total_score a.total_score⟩

instance : IsTrans ScoredEntry scoredGE :=
  ⟨fun _ _ _ hab hbc => le_trans hbc hab⟩

theorem withRanks_length : ∀ (n : ℕ) (l : List ScoredEntry), (withRanks n l).length = l.length
  | _, [] => rfl
  | n, _ :: ss => by
    simp only [withRanks, List.length_cons]
    rw [withRanks_length (n + 1) ss]

theorem withRanks_map_rank : ∀ (n : ℕ) (l : List ScoredEntry),
    (withRanks n l).map RankedEntry.rank = List.range' n l.length
  | _, [] => rfl
  | n, _ :: ss => by
    simp only [withRanks, List.map_cons, List.length_cons, List.range']
    rw [withRanks_map_rank (n + 1) ss]

theorem withRanks_map_total : ∀ (n : ℕ) (l : List ScoredEntry),
    (withRanks n l).map RankedEntry.total_score = l.map ScoredEntry.total_score
  | _, [] => rfl
  | n, _ :: ss => by
    simp only [withRanks, List.map_cons]
    rw [withRanks_map_total (n + 1) ss]

theorem withRanks_mem : ∀ (n : ℕ) (l : List ScoredEntry) (r : RankedEntry),
    r ∈ withRanks n l → ∃ s ∈ l, r.package = s.package ∧ r.total_score = s.total_score ∧
      r.score_breakdown = s.score_breakdown
  | _, [], r => by simp [withRanks]
  | n, s :: ss, r => by
    simp only [withRanks, List.mem_cons]
    rintro (rfl | hmem)
    · exact ⟨s, Or.inl rfl, rfl, rfl, rfl⟩
    · obtain ⟨s2, hs2, h⟩ := withRanks_mem (n + 1) ss r hmem
      exact ⟨s2, Or.inr hs2, h⟩

theorem filter_orderedInsert (q : ℚ) (a : ScoredEntry) : ∀ l : List ScoredEntry,
    (l.orderedInsert scoredGE a).filter (fun s => decide (s.total_score = q)) =
      if a.total_score = q then
        a :: l.filter (fun s => decide (s.total_score = q))
      else l.filter (fun s => decide (s.total_score = q))
  | [] => by
    by_cases h : a.total_score = q <;> simp [List.orderedInsert, List.filter, h]
  | x :: xs => by
    by_cases hax : scoredGE a x
    · rw [List.orderedInsert_of_le _ _ hax]
      by_cases h : a.total_score = q <;> simp [List.filter, h]
    · have hx : x.total_score ≠ q ∨ ¬ a.total_score = q := by
        by_cases h : a.total_score = q
        · left
          intro hxq
          exact hax (le_of_eq (hxq.trans h.symm))
        · right
          exact h
      simp only [List.orderedInsert, if_neg hax]
      by_cases h : a.total_score = q
      · have hxq : ¬ x.total_score = q := by
          rcases hx with hx | hx
          · exact hx
          · exact absurd h hx
        rw [List.filter_cons, List.filter_cons]
        simp only [hxq, decide_eq_true_eq, if_neg]
        rw [filter_orderedInsert q a xs]
        simp [h]
      · by_cases hxq : x.total_score = q
        · rw [List.filter_cons, List.filter_cons]
          simp only [hxq, decide_eq_true_eq]
          rw [filter_orderedInsert q a xs]
          simp [h, hxq]
        · rw [List.filter_cons, List.filter_cons]
          rw [filter_orderedInsert q a xs]
          simp [h, hxq]

theorem filter_insertionSort (q : ℚ) : ∀ l : List ScoredEntry,
    (l.insertionSort scoredGE).filter (fun s => decide (s.total_score = q)) =
      l.filter (fun s => decide (s.total_score = q))
  | [] => rfl
  | x :: xs => by
    simp only [List.insertionSort]
    rw [filter_orderedInsert q x (xs.insertionSort scoredGE), filter_insertionSort q xs]
    by_cases h : x.total_score = q <;> simp [List.filter, h]

/-- C9: `rank_packages` — an empty candidate list yields an empty result;
each output entry's breakdown is the factor scores of its package and its
total is the weighted sum of that breakdown rounded to 3 decimals; output
totals are non-increasing; the output length is `min maxResults |candidates|`
with consecutive 1-based ranks; and the output is the `maxResults`-prefix
(after sorting) of a descending stable sort of the scored candidates — a
permutation whose every equal-total fibre keeps the input order. -/
theorem c9_theorem :
    (∀ (w : Weights) (intent : ParsedIntent) (m : ℕ), rank_packages w [] intent m = []) ∧
    (∀ (w : Weights) (pkgs : List PackageRecord) (intent : ParsedIntent) (m : ℕ)
        (r : RankedEntry), r ∈ rank_packages w pkgs intent m →
      r.score_breakdown = _calculate_scores r.package intent ∧
        r.total_score = round3 (weightedSum w r.score_breakdown)) ∧
    (∀ (w : Weights) (pkgs : List PackageRecord) (intent : ParsedIntent) (m : ℕ),
      ((rank_packages w pkgs intent m).map RankedEntry.total_score).Pairwise (· ≥ ·)) ∧
    (∀ (w : Weights) (pkgs : List PackageRecord) (intent : ParsedIntent) (m : ℕ),
      (rank_packages w pkgs intent m).length = min m pkgs.length) ∧
    (∀ (w : Weights) (pkgs : List PackageRecord) (intent : ParsedIntent) (m : ℕ),
      (rank_packages w pkgs intent m).map RankedEntry.rank =
        List.range' 1 (min m pkgs.length)) ∧
    (∀ (w : Weights) (pkgs : List PackageRecord) (intent : ParsedIntent) (m : ℕ),
      ∃ sortedAll : List ScoredEntry,
        sortedAll.Perm (pkgs.map (mkScored w intent)) ∧
          (sortedAll.map ScoredEntry.total_score).Pairwise (· ≥ ·) ∧
          (∀ q : ℚ, sortedAll.filter (fun s => decide (s.total_score = q)) =
            (pkgs.map (mkScored w intent)).filter (fun s => decide (s.total_score = q))) ∧
          rank_packages w pkgs intent m = withRanks 1 (sortedAll.take m)) := by
  have hsorted : ∀ (w : Weights) (intent : ParsedIntent) (pkgs : List PackageRecord),
      (((pkgs.map (mkScored w intent)).insertionSort scoredGE).map
        ScoredEntry.total_score).Pairwise (· ≥ ·) := by
    intro w intent pkgs
    have h := List.sorted_insertionSort scoredGE (pkgs.map (mkScored w intent))
    rw [List.pairwise_map]
    exact h
  have hlen : ∀ (w : Weights) (intent : ParsedIntent) (pkgs : List PackageRecord),
      ((pkgs.map (mkScored w intent)).insertionSort scoredGE).length = pkgs.length := by
    intro w intent pkgs
    rw [(List.perm_insertionSort scoredGE _).length_eq, List.length_map]
  refine ⟨?_, ?_, ?_, ?_, ?_, ?_⟩
  · intro w intent m
    simp [rank_packages]
  · intro w pkgs intent m r hr
    rcases eq_or_ne pkgs [] with hnil | hnil
    · subst hnil
      simp [rank_packages] at hr
    · rw [rank_packages, if_neg hnil] at hr
      obtain ⟨s, hs, hpkg, htot, hbrk⟩ := withRanks_mem 1 _ r hr
      have hs2 : s ∈ (pkgs.map (mkScored w intent)).insertionSort scoredGE :=
        List.mem_of_mem_take hs
      rw [List.mem_insertionSort] at hs2
      obtain ⟨p, -, rfl⟩ := List.mem_map.mp hs2
      refine ⟨?_, ?_⟩
      · rw [hbrk, hpkg]
        rfl
      · rw [htot, hbrk]
        rfl
  · intro w pkgs intent m
    rcases eq_or_ne pkgs [] with hnil | hnil
    · subst hnil
      simp [rank_packages]
    · rw [rank_packages, if_neg hnil, withRanks_map_total]
      have h := hsorted w intent pkgs
      rw [List.pairwise_map] at h ⊢
      exact h.sublist (List.take_sublist _ _)
  · intro w pkgs intent m
    rcases eq_or_ne pkgs [] with hnil | hnil
    · subst hnil
      simp [rank_packages]
    · rw [rank_packages, if_neg hnil, withRanks_length, List.length_take, hlen]
  · intro w pkgs intent m
    rcases eq_or_ne pkgs [] with hnil | hnil
    · subst hnil
      simp [rank_packages, List.range']
    · rw [rank_packages, if_neg hnil, withRanks_map_rank, List.length_take, hlen]
  · intro w pkgs intent m
    rcases eq_or_ne pkgs [] with hnil | hnil
    · subst hnil
      refine ⟨[], by simp, by simp, by simp, by simp [rank_packages, withRanks]⟩
    · refine ⟨(pkgs.map (mkScored w intent)).insertionSort scoredGE,
        List.perm_insertionSort scoredGE _, hsorted w intent pkgs,
        fun q => filter_insertionSort q _, ?_⟩
      rw [rank_packages, if_neg hnil]

/-- Two concrete candidate packages for the C9 witness. -/
def pkgManaliKasol : PackageRecord :=
  { package_title := "Manali Kasol Special"
    price_in_inr := 19500
    duration_days := 5
    destinations := ["Manali", "Kasol"] }

/-- A concrete non-matching candidate for the C9 witness. -/
def pkgGoaOnly : PackageRecord :=
  { package_title := "Goa Getaway"
    price_in_inr := 50000
    duration_days := 2
    destinations := ["Goa"] }

/-- The scenario intent for the C9 witness. -/
def intentManaliKasol : ParsedIntent :=
  { destinations := ["Manali", "Kasol"]
    duration_days := some 5
    budget_per_person := some 20000
    flexibility_days := 2 }

/-- C9 witness: the ranking properties applied to a concrete two-candidate
call (empty call is empty; ranks are [1, 2]; totals are non-increasing;
length is min 5 2 = 2; each total is the rounded weighted sum). -/
theorem c9_witness :
    rank_packages defaultWeights [] intentManaliKasol 5 = [] ∧
      (rank_packages defaultWeights [pkgManaliKasol, pkgGoaOnly] intentManaliKasol
          5).map RankedEntry.rank = [1, 2] ∧
      (rank_packages defaultWeights [pkgManaliKasol, pkgGoaOnly] intentManaliKasol
          5).length = 2 ∧
      ((rank_packages defaultWeights [pkgManaliKasol, pkgGoaOnly] intentManaliKasol
          5).map RankedEntry.total_score).Pairwise (· ≥ ·) ∧
      (∀ r ∈ rank_packages defaultWeights [pkgManaliKasol, pkgGoaOnly] intentManaliKasol 5,
        r.total_score = round3 (weightedSum defaultWeights r.score_breakdown)) := by
  refine ⟨c9_theorem.1 defaultWeights intentManaliKasol 5, ?_, ?_,
    c9_theorem.2.2.1 defaultWeights [pkgManaliKasol, pkgGoaOnly] intentManaliKasol 5, ?_⟩
  · rw [c9_theorem.2.2.2.2.1 defaultWeights [pkgManaliKasol, pkgGoaOnly] intentManaliKasol 5]
    rfl
  · rw [c9_theorem.2.2.2.1 defaultWeights [pkgManaliKasol, pkgGoaOnly] intentManaliKasol 5]
    rfl
  · intro r hr
    exact ((c9_theorem.2.1 defaultWeights [pkgManaliKasol, pkgGoaOnly] intentManaliKasol 5
      r) hr).2

/-! ### C10 -/

/-- C10 counterexample: the raw listing with an empty title is accepted and
stored with the default title "Untitled Package", which is not the
title-cased form of its (empty) input — so the claim's "for every accepted
raw listing the stored package_title is the title-cased form of the input"
fails at this input. -/
theorem c10_counterexample :
    (normalize_package rawEmptyTitle 1).map NormalizedPackage.package_title =
        some "Untitled Package" ∧
      truncateTitle (strTitle (collapseWs rawEmptyTitle.title)) = "" ∧
      ("Untitled Package" : String) ≠ "" :=
  ⟨by decide, by decide, by decide⟩

/-- C10 (amended): every accepted raw listing with a non-empty raw title is
stored with the whitespace-collapsed, Python-`str.title()`-cased form of that
title (first letter of every maximal letter run uppercased, remaining letters
lowercased), truncated to 197 characters plus "..." when longer than 200; an
accepted listing with an empty raw title is stored as "Untitled Package". In
particular "GOA BEACH TOUR" is stored as "Goa Beach Tour", which changes the
(title, duration) dedup key relative to the raw title. -/
theorem c10_theorem :
    (∀ (raw : RawListing) (aid : ℕ) (pkg : NormalizedPackage),
      normalize_package raw aid = some pkg → raw.title ≠ "" →
      pkg.package_title = truncateTitle (strTitle (collapseWs raw.title))) ∧
    (∀ (raw : RawListing) (aid : ℕ) (pkg : NormalizedPackage),
      normalize_package raw aid = some pkg → raw.title = "" →
      pkg.package_title = "Untitled Package") ∧
    _clean_title "GOA BEACH TOUR" = "Goa Beach Tour" ∧
    ("Goa Beach Tour" : String) ≠ "GOA BEACH TOUR" := by
  refine ⟨?_, ?_, by decide, by decide⟩
  · intro raw aid pkg hn ht
    unfold normalize_package at hn
    split at hn
    · cases hn
      show _clean_title raw.title = _
      unfold _clean_title
      rw [if_neg ht]
    · exact absurd hn (by simp)
  · intro raw aid pkg hn ht
    unfold normalize_package at hn
    split at hn
    · cases hn
      show _clean_title raw.title = _
      unfold _clean_title
      rw [if_pos ht]
    · exact absurd hn (by simp)

/-- A raw listing with an all-caps title, accepted by normalization. -/
def rawGoaCaps : RawListing :=
  { title := "GOA BEACH TOUR"
    price_inr := 5000
    duration_days := 5
    destinations := ["Goa"] }

/-- C10 witness: the amended statement applied to the accepted all-caps
listing — its stored title is the title-cased collapse "Goa Beach Tour". -/
theorem c10_witness :
    (normalizedOf rawGoaCaps 1).package_title =
        truncateTitle (strTitle (collapseWs rawGoaCaps.title)) ∧
      truncateTitle (strTitle (collapseWs rawGoaCaps.title)) = "Goa Beach Tour" :=
  ⟨c10_theorem.1 rawGoaCaps 1 (normalizedOf rawGoaCaps 1) (by decide) (by decide),
    by decide⟩

end TravelRec
